import Mathlib

/-!
# Verification of the SwiftAlign orchestration pipeline

Shallow embedding of `SwiftAlign/hybrid_msa.py` (v1.2). Each definition
carries a reference to the Python function it embeds. External aligner
invocations (MAFFT/MUSCLE subprocesses) are abstracted by a success oracle
`succeeds : String → Bool` mapping a method name to the outcome of
invoking the aligner with that method; file-system effects are tracked as
multisets of created/removed file names. Floating-point arithmetic in the
Python (numpy mean/std, 0.85 and 0.05 thresholds) is idealized as exact
rational/real arithmetic.
-/

namespace SwiftAlign

/-! ## Sequence type detection — `detect_sequence_type`, hybrid_msa.py lines 80-87 -/

/-- Python line 82: `dna_bases = set("ATGCNatgcn")`. -/
def dna_bases : List Char := ['A', 'T', 'G', 'C', 'N', 'a', 't', 'g', 'c', 'n']

/-- Python line 83: `total_bases = sum(len(seq.seq) for seq in seqs)`. -/
def total_bases (seqs : List String) : ℕ :=
  (seqs.map String.length).sum

/-- Python line 84: `dna_count = sum(sum(1 for b in seq.seq if b in dna_bases) for seq in seqs)`. -/
def dna_count (seqs : List String) : ℕ :=
  (seqs.map (fun s => (s.data.filter (fun b => b ∈ dna_bases)).length)).sum

/-- Python line 85: `seq_type = "dna" if total_bases == 0 or dna_count / total_bases > 0.85 else "protein"` (float division idealized over ℚ; the `total_bases == 0` disjunct
short-circuits exactly as in Python). -/
def detect_sequence_type (seqs : List String) : String :=
  if total_bases seqs = 0 ∨ (85 : ℚ) / 100 < (dna_count seqs : ℚ) / (total_bases seqs : ℚ)
  then "dna" else "protein"

/-! ## Parameter optimization — `auto_optimize_parameters`, hybrid_msa.py lines 90-114 -/

/-- Python lines 91-92: `mean_length = np.mean(lengths)` over `lengths = [len(seq.seq) for seq in seqs]`. `np.mean([])` is NaN, for which every `>` comparison is false; we
model it as 0, which makes the same comparisons false. -/
def mean_length (seqs : List String) : ℚ :=
  if seqs = [] then 0
  else (seqs.map (fun s => (s.length : ℚ))).sum / (seqs.length : ℚ)

/-- Python line 93, squared: `np.std(lengths) ** 2` is the population variance (ddof = 0) of the sequence
lengths, line 93. (We track the variance rather than the standard deviation so
the definition stays within ℚ; `std = sqrt var_length`.) -/
def var_length (seqs : List String) : ℚ :=
  if seqs = [] then 0
  else (seqs.map (fun s => ((s.length : ℚ) - mean_length seqs) ^ 2)).sum / (seqs.length : ℚ)

/-- The comparison `divergence > c` for a threshold `c > 0`, where
`divergence = std_length / mean_length if mean_length > 0 else 0` (line 94).
Since `std = sqrt var`, for `mean > 0` we have `std/mean > c ↔ var > c² · mean²`,
which keeps the branch decidable over ℚ. `divergence_spec_gt_iff` below proves
this equivalent to the direct real-valued reading of line 94. -/
def div_gt (seqs : List String) (c : ℚ) : Prop :=
  0 < mean_length seqs ∧ c ^ 2 * mean_length seqs ^ 2 < var_length seqs

instance (seqs : List String) (c : ℚ) : Decidable (div_gt seqs c) :=
  inferInstanceAs (Decidable
    (0 < mean_length seqs ∧ c ^ 2 * mean_length seqs ^ 2 < var_length seqs))

/-- The real-valued divergence exactly as line 94 computes it:
`divergence = std_length / mean_length if mean_length > 0 else 0`. -/
noncomputable def divergence (seqs : List String) : ℝ :=
  if 0 < mean_length seqs
  then Real.sqrt (var_length seqs : ℝ) / (mean_length seqs : ℝ)
  else 0

/-- Result tuple of `auto_optimize_parameters`, line 114. -/
structure OptParams where
  mafft_method : String
  gap_open : Option ℚ
  gap_extend : Option ℚ
  muscle_max_iter : ℕ
  deriving Repr, DecidableEq

/-- Python lines 90-114, `auto_optimize_parameters(seqs, seq_type, mode)`:
mode `"fast"` returns `("auto", None, None, 8)`; otherwise the method is
`"linsi"`/`"einsi"` (protein/nucleotide) when divergence > 0.05 else `"auto"`,
gap penalties `1.5/0.2` above divergence 0.1, `1.0/0.1` above 0.05, unset
otherwise, and 32 MUSCLE iterations above 0.05 else 16. -/
def auto_optimize_parameters (seqs : List String) (seq_type : String) (mode : String) :
    OptParams :=
  if mode = "fast" then ⟨"auto", none, none, 8⟩
  else
    { mafft_method :=
        if seq_type = "protein" then
          if div_gt seqs (5 / 100) then "linsi" else "auto"
        else
          if div_gt seqs (5 / 100) then "einsi" else "auto"
      gap_open :=
        if div_gt seqs (1 / 10) then some (15 / 10)
        else if div_gt seqs (5 / 100) then some 1 else none
      gap_extend :=
        if div_gt seqs (1 / 10) then some (2 / 10)
        else if div_gt seqs (5 / 100) then some (1 / 10) else none
      muscle_max_iter := if div_gt seqs (5 / 100) then 32 else 16 }

/-! ## Chunking — `chunk_fasta`, hybrid_msa.py lines 117-124

The Python loop `for i in range(0, len(seqs), chunk_size)` visits
`i = k * chunk_size` for `k < ⌈len(seqs) / chunk_size⌉` and writes the slice
`seqs[i : i + chunk_size]` to file `chunk_{i // chunk_size}.fasta = chunk_k.fasta`. -/

/-- The list of sequence groups produced by `chunk_fasta`: group `k` is the
slice `seqs[k*chunk_size : k*chunk_size + chunk_size]`. `chunk_size = 0`
raises `ValueError` in Python (`range` with zero step); here it yields `[]`. -/
def chunk_fasta {α : Type*} (seqs : List α) (chunk_size : ℕ) : List (List α) :=
  (List.range ((seqs.length + chunk_size - 1) / chunk_size)).map
    (fun k => ((seqs.drop (k * chunk_size)).take chunk_size))

/-- File name `f"chunk_{k}.fasta"` of the `k`-th chunk, line 120. -/
def chunkName (k : ℕ) : String := "chunk_" ++ toString k ++ ".fasta"

/-! ## Per-chunk alignment with fallback — `run_mafft_chunk`, hybrid_msa.py lines 135-181 -/

/-- Command-line token: `Arg.str` is a literal token, `Arg.num q` stands for
Python's `str(q)` rendering of a numeric gap penalty (kept symbolic). -/
inductive Arg where
  | str : String → Arg
  | num : ℚ → Arg
  deriving DecidableEq, Repr

/-- Python lines 144-157, `build_cmd(method)`, with `find_binary("mafft")` abstracted
as the token `"mafft"`. -/
def build_cmd (threads : ℕ) (gap_open gap_extend : Option ℚ) (chunk_file : String)
    (method : String) : List Arg :=
  ([Arg.str "mafft", Arg.str "--thread", Arg.str (toString threads)]
    ++ (if method = "linsi" then
          [Arg.str "--localpair", Arg.str "--maxiterate", Arg.str "1000"]
        else if method = "einsi" then
          [Arg.str "--genafpair", Arg.str "--maxiterate", Arg.str "1000"]
        else if method = "ginsi" then
          [Arg.str "--globalpair", Arg.str "--maxiterate", Arg.str "1000"]
        else if method = "auto" then [Arg.str "--auto"]
        else [])
    ++ (match gap_open with | some g => [Arg.str "--op", Arg.num g] | none => [])
    ++ (match gap_extend with | some e => [Arg.str "--ep", Arg.num e] | none => []))
  ++ [Arg.str chunk_file]

/-- The fallback ladder `methods_to_try = [mafft_method, "ginsi", "linsi", "auto"]`,
identical text at line 159 (chunk) and line 212 (merge). -/
def methods_to_try (mafft_method : String) : List String :=
  [mafft_method, "ginsi", "linsi", "auto"]

/-- The chunk-side fallback loop, lines 160-170: iterate over the ladder with a
`tried` set, skipping members already tried, invoking the aligner otherwise and
stopping at the first success. Returns the list of methods actually invoked
and whether the loop ended in success. -/
def runLadderTried (succeeds : String → Bool) : List String → List String →
    List String × Bool
  | _, [] => ([], false)
  | tried, m :: rest =>
    if m ∈ tried then runLadderTried succeeds tried rest
    else if succeeds m then ([m], true)
    else
      let r := runLadderTried succeeds (m :: tried) rest
      (m :: r.1, r.2)

/-- The merge-side fallback loop, lines 213-219: same ladder iteration but with
NO `tried` set — every ladder entry reaching the loop is invoked. -/
def runLadder (succeeds : String → Bool) : List String → List String × Bool
  | [] => ([], false)
  | m :: rest =>
    if succeeds m then ([m], true)
    else
      let r := runLadder succeeds rest
      (m :: r.1, r.2)

/-- Observable outcome of `run_mafft_chunk`: the returned path (`none` models
`sys.exit(1)` at line 174) and the methods invoked, in order. -/
structure ChunkRun where
  result : Option String
  attempts : List String
  deriving Repr, DecidableEq

/-- Python lines 135-181, `run_mafft_chunk`: chunks with ≤ 1 sequence are returned
unchanged with no aligner invocation (lines 140-142); otherwise the fallback
ladder runs with the `tried` set (lines 159-170); success returns
`f"{chunk_file}.aligned.fasta"` (lines 137, 181), exhaustion exits fatally
(lines 172-174). -/
def run_mafft_chunk (chunk_file : String) (seq_count : ℕ) (mafft_method : String)
    (succeeds : String → Bool) : ChunkRun :=
  if seq_count ≤ 1 then ⟨some chunk_file, []⟩
  else
    let r := runLadderTried succeeds [] (methods_to_try mafft_method)
    if r.2 then ⟨some (chunk_file ++ ".aligned.fasta"), r.1⟩ else ⟨none, r.1⟩

/-- The methods attempted (and final outcome) by one merge invocation inside
`progressive_merge`, lines 212-222: the same ladder list but iterated without
any `tried` set. -/
def merge_attempts (mafft_method : String) (succeeds : String → Bool) :
    List String × Bool :=
  runLadder succeeds (methods_to_try mafft_method)

/-! ## Progressive merge — `progressive_merge`, hybrid_msa.py lines 184-232

One round of the `while len(aligned_files) > 1` loop walks the list in steps
of two (`for i in range(0, len(aligned_files), 2)`): a full pair `(i, i+1)` is
merged into `f"merged_{step}_{i//2}.fasta"` and both inputs are `os.remove`d
(lines 224-226); an odd trailing element is carried forward (line 228). The
model assumes every merge invocation succeeds (the success path: a failed
ladder calls `sys.exit(1)` and no run completes), which leaves the file
bookkeeping independent of the success oracle. -/

/-- File name `f"merged_{step}_{j}.fasta"` with `j = i // 2`, line 190. -/
def mergedName (step j : ℕ) : String :=
  "merged_" ++ toString step ++ "_" ++ toString j ++ ".fasta"

/-- One round of the merge loop: from pair index `j`, returns
(files remaining after the round, files created, files removed). -/
def mergeRound (step : ℕ) : ℕ → List String → List String × List String × List String
  | _, [] => ([], [], [])
  | _, [f] => ([f], [], [])
  | j, a :: b :: rest =>
    let r := mergeRound step (j + 1) rest
    (mergedName step j :: r.1, mergedName step j :: r.2.1, a :: b :: r.2.2)

/-- Observable outcome of `progressive_merge`: the returned path
(`aligned_files[0]`, line 232 — `none` when the list is empty and the indexing
raises `IndexError`), the number of rounds of the outer `while` loop executed,
and all files created and removed during the merge phase. -/
structure MergeRun where
  result : Option String
  rounds : ℕ
  created : List String
  removed : List String
  deriving Repr, DecidableEq

/-- A round over `n` files leaves `⌈n/2⌉` files. -/
theorem mergeRound_length (step : ℕ) :
    ∀ (l : List String) (j : ℕ), (mergeRound step j l).1.length = (l.length + 1) / 2
  | [], _ => by simp [mergeRound]
  | [f], _ => by simp [mergeRound]
  | a :: b :: rest, j => by
    simp only [mergeRound, List.length_cons]
    rw [mergeRound_length step rest (j + 1)]
    omega

/-- The outer `while len(aligned_files) > 1` loop of `progressive_merge`,
lines 185-232, starting at round counter `step` (`step = 1` initially). -/
def progressive_merge (step : ℕ) (aligned_files : List String) : MergeRun :=
  if h : aligned_files.length ≤ 1 then ⟨aligned_files.head?, 0, [], []⟩
  else
    let rnd := mergeRound step 0 aligned_files
    have hlt : rnd.1.length < aligned_files.length := by
      show (mergeRound step 0 aligned_files).1.length < aligned_files.length
      have := mergeRound_length step aligned_files 0
      omega
    let rec' := progressive_merge (step + 1) rnd.1
    ⟨rec'.result, rec'.rounds + 1, rnd.2.1 ++ rec'.created, rnd.2.2 ++ rec'.removed⟩
termination_by aligned_files.length

/-! ## End-to-end file bookkeeping — `main`, hybrid_msa.py lines 256-312

On the success path, `main` creates the chunk files (line 121), one
`f"{chunk}.aligned.fasta"` per chunk with ≥ 2 sequences (every fallback
attempt writes the same output name, line 129/137; chunks with ≤ 1 sequence
produce no new file, lines 140-142), the merge-phase files, the MUSCLE
temporary `"muscle_final_temp.fasta"` (line 292) and the user's output file;
it removes the merge inputs (lines 225-226) and finally `merged_file` and
`temp_muscle` (lines 297-298). Intermediate-file names are pairwise distinct
(`chunk_k.fasta`, `chunk_k.fasta.aligned.fasta`, `merged_s_j.fasta`,
`muscle_final_temp.fasta`), so multisets of names model the file system. -/

/-- Output name `f"{chunk_file}.aligned.fasta"`, line 137. -/
def alignedName (f : String) : String := f ++ ".aligned.fasta"

/-- Python line 292: `temp_muscle = "muscle_final_temp.fasta"`. -/
def tempMuscle : String := "muscle_final_temp.fasta"

/-- Chunk files written by `chunk_fasta` for chunks (of the given sizes)
numbered from `k`. -/
def chunkFilesFrom (k : ℕ) : List ℕ → List String
  | [] => []
  | _ :: rest => chunkName k :: chunkFilesFrom (k + 1) rest

/-- Values returned by `run_mafft_chunk` on the success path, per chunk size:
the chunk file itself when it holds ≤ 1 sequence, else its aligned output. -/
def alignResultsFrom (k : ℕ) : List ℕ → List String
  | [] => []
  | sz :: rest =>
    (if sz ≤ 1 then chunkName k else alignedName (chunkName k)) :: alignResultsFrom (k + 1) rest

/-- Aligned output files written by `run_mafft_chunk` (chunks with ≥ 2 sequences). -/
def alignedCreatedFrom (k : ℕ) : List ℕ → List String
  | [] => []
  | sz :: rest =>
    if sz ≤ 1 then alignedCreatedFrom (k + 1) rest
    else alignedName (chunkName k) :: alignedCreatedFrom (k + 1) rest

/-- Chunk files of chunks with ≥ 2 sequences. -/
def multiChunkFilesFrom (k : ℕ) : List ℕ → List String
  | [] => []
  | sz :: rest =>
    if sz ≤ 1 then multiChunkFilesFrom (k + 1) rest
    else chunkName k :: multiChunkFilesFrom (k + 1) rest

/-- The sizes of the chunks `chunk_fasta` produces. -/
def chunkSizes (seqs : List String) (chunk_size : ℕ) : List ℕ :=
  (chunk_fasta seqs chunk_size).map List.length

/-- All intermediate files a successful run creates: chunk files, per-chunk
aligned outputs, merge-phase files and the MUSCLE temporary (the user's output
file and the log are not intermediates). -/
def pipelineCreated (seqs : List String) (chunk_size : ℕ) : Multiset String :=
  (chunkFilesFrom 0 (chunkSizes seqs chunk_size) : Multiset String)
    + (alignedCreatedFrom 0 (chunkSizes seqs chunk_size) : Multiset String)
    + ((progressive_merge 1
        (alignResultsFrom 0 (chunkSizes seqs chunk_size))).created : Multiset String)
    + {tempMuscle}

/-- All files a successful run removes: merge inputs (lines 225-226), the final
merged file and the MUSCLE temporary (lines 297-298). -/
def pipelineRemoved (seqs : List String) (chunk_size : ℕ) : Multiset String :=
  ((progressive_merge 1
      (alignResultsFrom 0 (chunkSizes seqs chunk_size))).removed : Multiset String)
    + ((progressive_merge 1
        (alignResultsFrom 0 (chunkSizes seqs chunk_size))).result.toList : Multiset String)
    + {tempMuscle}

/-- The intermediate files still on disk when a successful run completes. -/
def pipelineLeftover (seqs : List String) (chunk_size : ℕ) : Multiset String :=
  pipelineCreated seqs chunk_size - pipelineRemoved seqs chunk_size

/-! ## Spec-side ladder descriptions (for the fallback claims)

These two definitions follow the SPEC's words — "skipping methods already
tried, stopping at first success" — and are compared against the loop
embeddings `runLadderTried`/`runLadder` taken from the code. -/

/-- First-occurrence deduplication, seeded with an already-seen list:
the order of first appearances, duplicates dropped. -/
def dedupFirst (seen : List String) : List String → List String
  | [] => []
  | m :: rest =>
    if m ∈ seen then dedupFirst seen rest else m :: dedupFirst (m :: seen) rest

/-- The prefix of a ladder actually invoked when iteration stops at the first
success: all leading failures, plus the first succeeding method if any. -/
def stopAtFirstSuccess (succeeds : String → Bool) (l : List String) : List String :=
  match l.dropWhile (fun m => !succeeds m) with
  | [] => l
  | m :: _ => l.takeWhile (fun m => !succeeds m) ++ [m]

/-! ## Ladder lemmas -/

theorem stopAtFirstSuccess_cons_fail (succeeds : String → Bool) (m : String)
    (rest : List String) (h : succeeds m = false) :
    stopAtFirstSuccess succeeds (m :: rest) = m :: stopAtFirstSuccess succeeds rest := by
  unfold stopAtFirstSuccess
  simp only [List.dropWhile_cons, List.takeWhile_cons, h, Bool.not_false, if_true]
  cases List.dropWhile (fun m => !succeeds m) rest <;> simp

/-- The merge-side loop invokes the leading failures plus the first success,
and succeeds iff some ladder member succeeds. -/
theorem runLadder_eq (succeeds : String → Bool) :
    ∀ l : List String,
      runLadder succeeds l = (stopAtFirstSuccess succeeds l, l.any succeeds)
  | [] => by simp [runLadder, stopAtFirstSuccess]
  | m :: rest => by
    by_cases h : succeeds m
    · simp [runLadder, h, stopAtFirstSuccess, List.dropWhile_cons, List.takeWhile_cons]
    · rw [runLadder]
      simp only [Bool.not_eq_true] at h
      rw [runLadder_eq succeeds rest]
      simp [h, stopAtFirstSuccess_cons_fail succeeds m rest h]

/-- The chunk-side loop (with the `tried` set) behaves exactly like the plain
loop on the first-occurrence-deduplicated ladder. -/
theorem runLadderTried_eq (succeeds : String → Bool) :
    ∀ (l tried : List String),
      runLadderTried succeeds tried l = runLadder succeeds (dedupFirst tried l)
  | [], _ => by simp [runLadderTried, dedupFirst, runLadder]
  | m :: rest, tried => by
    by_cases hm : m ∈ tried
    · rw [runLadderTried, if_pos hm, dedupFirst, if_pos hm,
        runLadderTried_eq succeeds rest tried]
    · by_cases hs : succeeds m
      · simp [runLadderTried, dedupFirst, hm, runLadder, hs]
      · simp only [Bool.not_eq_true] at hs
        rw [runLadderTried, if_neg hm, dedupFirst, if_neg hm, runLadder]
        simp [hs, runLadderTried_eq succeeds rest (m :: tried)]

/-- The tail `["ginsi", "linsi", "auto"]` is duplicate-free, so when the chosen
method is not one of those the full ladder is duplicate-free. -/
theorem dedupFirst_methods (mafft_method : String)
    (h : mafft_method ∉ ["ginsi", "linsi", "auto"]) :
    dedupFirst [] (methods_to_try mafft_method) = methods_to_try mafft_method := by
  simp only [List.mem_cons, List.not_mem_nil, or_false, not_or] at h
  obtain ⟨h1, h2, h3⟩ := h
  simp [dedupFirst, methods_to_try, h1, h2, h3, Ne.symm h1, Ne.symm h2, Ne.symm h3]

/-! ## Claim theorems -/

/-- Claim C9: the Sequence Classifier labels a sequence set nucleotide exactly
when the fraction of residues in the case-insensitive alphabet {A,T,G,C,N}
strictly exceeds 0.85 or the total residue count is zero, and labels it
protein otherwise; an empty sequence set is labelled nucleotide. -/
theorem claim_C9_classifier (seqs : List String) :
    (detect_sequence_type seqs = "dna" ↔
      (total_bases seqs = 0 ∨
        (85 : ℚ) / 100 < (dna_count seqs : ℚ) / (total_bases seqs : ℚ)))
    ∧ (detect_sequence_type seqs = "protein" ↔
      ¬ (total_bases seqs = 0 ∨
        (85 : ℚ) / 100 < (dna_count seqs : ℚ) / (total_bases seqs : ℚ)))
    ∧ detect_sequence_type [] = "dna" := by
  refine ⟨?_, ?_, by decide⟩ <;> unfold detect_sequence_type <;> split <;> simp_all

/-- Claim C8: a chunk holding at most one sequence makes `run_mafft_chunk` a
no-op — no aligner method is invoked and the chunk file itself is returned. -/
theorem claim_C8_single_chunk_noop (chunk_file : String) (seq_count : ℕ)
    (mafft_method : String) (succeeds : String → Bool) (h : seq_count ≤ 1) :
    run_mafft_chunk chunk_file seq_count mafft_method succeeds
      = ⟨some chunk_file, []⟩ := by
  unfold run_mafft_chunk
  rw [if_pos h]

/-- Witness for C8 at `seq_count = 1`. -/
theorem claim_C8_witness :
    run_mafft_chunk "chunk_0.fasta" 1 "auto" (fun _ => false)
      = ⟨some "chunk_0.fasta", []⟩ :=
  claim_C8_single_chunk_noop "chunk_0.fasta" 1 "auto" (fun _ => false) (by decide)

/-- Claim C6: for a chunk with more than one sequence the fallback runs the
ladder [chosen, ginsi, linsi, auto] with first occurrences only (already-tried
methods skipped), invoking exactly the leading failures plus the first
success; a success returns the `.aligned.fasta` output path, and if every
ladder method fails the run is fatal (`sys.exit(1)`, modelled as `none` — no
partial output path). -/
theorem claim_C6_chunk_fallback_ladder (chunk_file mafft_method : String)
    (seq_count : ℕ) (succeeds : String → Bool) (h : 1 < seq_count) :
    (run_mafft_chunk chunk_file seq_count mafft_method succeeds).attempts
        = stopAtFirstSuccess succeeds (dedupFirst [] (methods_to_try mafft_method))
    ∧ ((dedupFirst [] (methods_to_try mafft_method)).any succeeds = true →
        (run_mafft_chunk chunk_file seq_count mafft_method succeeds).result
          = some (chunk_file ++ ".aligned.fasta"))
    ∧ ((dedupFirst [] (methods_to_try mafft_method)).any succeeds = false →
        (run_mafft_chunk chunk_file seq_count mafft_method succeeds).result = none) := by
  unfold run_mafft_chunk
  rw [if_neg (by omega), runLadderTried_eq succeeds (methods_to_try mafft_method) [],
    runLadder_eq]
  refine ⟨?_, ?_, ?_⟩
  · dsimp only; split <;> rfl
  · intro hs; dsimp only; rw [if_pos hs]
  · intro hs; dsimp only; rw [hs]; rfl

/-- Witness for C6: chosen method linsi, only auto succeeds, two-sequence
chunk — attempts are [linsi, ginsi, auto] and the aligned path is returned. -/
theorem claim_C6_witness :
    (run_mafft_chunk "chunk_0.fasta" 2 "linsi" (fun m => m == "auto")).attempts
        = stopAtFirstSuccess (fun m => m == "auto") (dedupFirst [] (methods_to_try "linsi"))
    ∧ ((dedupFirst [] (methods_to_try "linsi")).any (fun m => m == "auto") = true →
        (run_mafft_chunk "chunk_0.fasta" 2 "linsi" (fun m => m == "auto")).result
          = some ("chunk_0.fasta" ++ ".aligned.fasta")) :=
  ⟨(claim_C6_chunk_fallback_ladder "chunk_0.fasta" "linsi" 2 (fun m => m == "auto")
      (by decide)).1,
   (claim_C6_chunk_fallback_ladder "chunk_0.fasta" "linsi" 2 (fun m => m == "auto")
      (by decide)).2.1⟩

/-- Counterexample to claim C1: with chosen method "linsi" and an oracle where
only "auto" succeeds, a merge invocation attempts [linsi, ginsi, linsi, auto]
— "linsi" is attempted twice, because `progressive_merge` (lines 212-219) has
no `tried` set — while the per-chunk fallback attempts [linsi, ginsi, auto].
The attempted sequences differ, refuting "the same fallback ladder … with
methods already tried skipped (never attempted twice)". -/
theorem claim_C1_counterexample :
    (merge_attempts "linsi" (fun m => m == "auto")).1
        = ["linsi", "ginsi", "linsi", "auto"]
    ∧ (run_mafft_chunk "chunk_0.fasta" 2 "linsi" (fun m => m == "auto")).attempts
        = ["linsi", "ginsi", "auto"]
    ∧ (merge_attempts "linsi" (fun m => m == "auto")).1
        ≠ (run_mafft_chunk "chunk_0.fasta" 2 "linsi" (fun m => m == "auto")).attempts
    ∧ ((merge_attempts "linsi" (fun m => m == "auto")).1.count "linsi" = 2) := by
  refine ⟨rfl, rfl, by decide, rfl⟩

/-- Claim C1 as amended: each merge invocation iterates the same ordered list
[chosen, ginsi, linsi, auto] as the per-chunk aligner and stops at the first
success, but does NOT skip methods already tried: the merge loop runs the raw
ladder, the chunk loop runs its first-occurrence deduplication, and the two
attempt sequences coincide whenever the chosen method is not one of
ginsi/linsi/auto. -/
theorem claim_C1_amended_merge_ladder (mafft_method : String)
    (succeeds : String → Bool) :
    merge_attempts mafft_method succeeds
      = (stopAtFirstSuccess succeeds (methods_to_try mafft_method),
         (methods_to_try mafft_method).any succeeds)
    ∧ (mafft_method ∉ ["ginsi", "linsi", "auto"] →
        (merge_attempts mafft_method succeeds).1
          = (runLadderTried succeeds [] (methods_to_try mafft_method)).1) := by
  constructor
  · exact runLadder_eq succeeds (methods_to_try mafft_method)
  · intro h
    rw [merge_attempts, runLadderTried_eq succeeds (methods_to_try mafft_method) [],
      dedupFirst_methods mafft_method h]

/-- Witness for the amended C1: chosen method "einsi" (not on the tail), all
attempts failing — merge and chunk loops attempt the same sequence. -/
theorem claim_C1_amended_witness :
    merge_attempts "einsi" (fun _ => false)
      = (stopAtFirstSuccess (fun _ => false) (methods_to_try "einsi"),
         (methods_to_try "einsi").any (fun _ => false))
    ∧ (merge_attempts "einsi" (fun _ => false)).1
        = (runLadderTried (fun _ => false) [] (methods_to_try "einsi")).1 :=
  ⟨(claim_C1_amended_merge_ladder "einsi" (fun _ => false)).1,
   (claim_C1_amended_merge_ladder "einsi" (fun _ => false)).2 (by decide)⟩

/-! ## Chunker lemmas -/

theorem chunk_fasta_nil {α : Type*} (chunk_size : ℕ) :
    chunk_fasta ([] : List α) chunk_size = [] := by
  have h : (List.length ([] : List α) + chunk_size - 1) / chunk_size = 0 := by
    rcases Nat.eq_zero_or_pos chunk_size with h0 | h0
    · simp [h0]
    · exact Nat.div_eq_of_lt (by simp; omega)
  unfold chunk_fasta
  rw [h]
  rfl

/-- Unfolding the Python loop once: a nonempty input's first chunk is the
first `chunk_size` sequences, and the rest is the chunking of the remainder. -/
theorem chunk_fasta_cons {α : Type*} (seqs : List α) (cs : ℕ) (hcs : 0 < cs)
    (hne : seqs ≠ []) :
    chunk_fasta seqs cs = seqs.take cs :: chunk_fasta (seqs.drop cs) cs := by
  have hn : 1 ≤ seqs.length := List.length_pos.mpr hne
  have hdiv : (seqs.length + cs - 1) / cs = ((seqs.length - cs) + cs - 1) / cs + 1 := by
    rcases le_or_lt seqs.length cs with hle | hlt
    · rw [show seqs.length - cs = 0 by omega,
        show seqs.length + cs - 1 = (seqs.length - 1) + cs by omega,
        Nat.add_div_right _ hcs,
        Nat.div_eq_of_lt (show seqs.length - 1 < cs by omega),
        Nat.div_eq_of_lt (show 0 + cs - 1 < cs by omega)]
    · rw [show seqs.length + cs - 1 = (seqs.length - 1) + cs by omega,
        Nat.add_div_right _ hcs,
        show seqs.length - cs + cs - 1 = seqs.length - 1 by omega]
  unfold chunk_fasta
  rw [List.length_drop, hdiv, List.range_succ_eq_map, List.map_cons, List.map_map]
  congr 1
  · simp
  · refine List.map_congr_left fun k _ => ?_
    simp [Function.comp, List.drop_drop, Nat.succ_mul, Nat.add_comm]

/-- Concatenating the chunks in order reproduces the input. -/
theorem chunk_fasta_flatten {α : Type*} (cs : ℕ) (hcs : 0 < cs) :
    ∀ seqs : List α, (chunk_fasta seqs cs).flatten = seqs := by
  have H : ∀ (n : ℕ) (seqs : List α), seqs.length = n →
      (chunk_fasta seqs cs).flatten = seqs := by
    intro n
    induction n using Nat.strong_induction_on with
    | _ n ih =>
      intro seqs hn
      rcases n with - | m
      · rw [List.length_eq_zero.mp hn, chunk_fasta_nil]; rfl
      · have hne : seqs ≠ [] := by
          intro h; rw [h] at hn; simp at hn
        rw [chunk_fasta_cons seqs cs hcs hne, List.flatten_cons,
          ih (seqs.drop cs).length (by rw [List.length_drop]; omega) (seqs.drop cs) rfl,
          List.take_append_drop]
  exact fun seqs => H seqs.length seqs rfl

/-- Claim C5 as amended: for every positive chunk size, the Chunker splits the
set into consecutive groups of at most chunk-size sequences whose in-order
concatenation reproduces the original order and count, producing exactly
`⌈total / chunk_size⌉ = (total + chunk_size - 1) / chunk_size` chunks; a chunk
size ≥ a NONZERO total yields exactly one chunk (an empty sequence set yields
zero chunks, not one). -/
theorem claim_C5_amended_chunker {α : Type*} (seqs : List α) (cs : ℕ) (hcs : 0 < cs) :
    (∀ c ∈ chunk_fasta seqs cs, c.length ≤ cs)
    ∧ (chunk_fasta seqs cs).flatten = seqs
    ∧ (chunk_fasta seqs cs).length = (seqs.length + cs - 1) / cs
    ∧ (0 < seqs.length → seqs.length ≤ cs → (chunk_fasta seqs cs).length = 1) := by
  refine ⟨?_, chunk_fasta_flatten cs hcs seqs, ?_, ?_⟩
  · intro c hc
    unfold chunk_fasta at hc
    obtain ⟨k, -, rfl⟩ := List.mem_map.mp hc
    exact List.length_take_le cs _
  · unfold chunk_fasta
    rw [List.length_map, List.length_range]
  · intro h1 h2
    unfold chunk_fasta
    rw [List.length_map, List.length_range,
      Nat.div_eq_of_lt_le (k := 1) (by omega) (by omega)]

/-- Witness for C5 (amended) at three sequences and chunk size two. -/
theorem claim_C5_amended_witness :
    (∀ c ∈ chunk_fasta [1, 2, 3] 2, c.length ≤ 2)
    ∧ (chunk_fasta [1, 2, 3] 2).flatten = [1, 2, 3]
    ∧ (chunk_fasta [1, 2, 3] 2).length = (3 + 2 - 1) / 2 :=
  ⟨(claim_C5_amended_chunker [1, 2, 3] 2 (by decide)).1,
   (claim_C5_amended_chunker [1, 2, 3] 2 (by decide)).2.1,
   (claim_C5_amended_chunker [1, 2, 3] 2 (by decide)).2.2.1⟩

/-- Counterexample to claim C5 as stated: on the empty sequence set with chunk
size 1 ≥ 0 = total, the Chunker yields zero chunks, not "exactly one chunk". -/
theorem claim_C5_counterexample :
    ([] : List ℕ).length ≤ 1 ∧ (chunk_fasta ([] : List ℕ) 1).length ≠ 1 := by
  decide

/-- Claim C10: on an empty input the Chunker produces no chunk files, and the
Progressive Merge Reducer's final `aligned_files[0]` indexes an empty list
(modelled by `head? = none`): the pipeline fails on empty input instead of
producing an output file. -/
theorem claim_C10_empty_input (chunk_size step : ℕ) :
    chunk_fasta ([] : List String) chunk_size = []
    ∧ (progressive_merge step []).result = none := by
  refine ⟨chunk_fasta_nil chunk_size, ?_⟩
  rw [progressive_merge]
  rfl

/-! ## Divergence lemmas -/

theorem var_length_nonneg (seqs : List String) : 0 ≤ var_length seqs := by
  unfold var_length
  split
  · exact le_refl 0
  · apply div_nonneg _ (by positivity)
    apply List.sum_nonneg
    intro x hx
    obtain ⟨s, -, rfl⟩ := List.mem_map.mp hx
    positivity

/-- The code's rational branch `div_gt seqs c` coincides with the spec's
reading `std/mean > c` (0 if the mean is 0) for every positive threshold. -/
theorem divergence_spec_gt_iff (seqs : List String) (c : ℚ) (hc : 0 < c) :
    div_gt seqs c ↔ (c : ℝ) < divergence seqs := by
  unfold divergence div_gt
  by_cases hm : 0 < mean_length seqs
  · rw [if_pos hm]
    have hmR : (0 : ℝ) < (mean_length seqs : ℝ) := by exact_mod_cast hm
    rw [lt_div_iff₀ hmR, Real.lt_sqrt (by positivity),
      show ((c : ℝ) * (mean_length seqs : ℝ)) ^ 2
          = ((c ^ 2 * mean_length seqs ^ 2 : ℚ) : ℝ) by push_cast; ring,
      Rat.cast_lt]
    exact and_iff_right hm
  · rw [if_neg hm]
    constructor
    · intro h; exact absurd h.1 hm
    · intro h
      exact absurd h (by exact_mod_cast hc.not_lt)

/-- Specialization of the bridge at the 0.05 threshold. -/
theorem divergence_gt_5_100_iff (seqs : List String) :
    div_gt seqs (5 / 100) ↔ (5 : ℝ) / 100 < divergence seqs := by
  have h : ((5 / 100 : ℚ) : ℝ) = (5 : ℝ) / 100 := by norm_num
  rw [divergence_spec_gt_iff seqs (5 / 100) (by norm_num), h]

/-- Specialization of the bridge at the 0.1 threshold. -/
theorem divergence_gt_1_10_iff (seqs : List String) :
    div_gt seqs (1 / 10) ↔ (1 : ℝ) / 10 < divergence seqs := by
  have h : ((1 / 10 : ℚ) : ℝ) = (1 : ℝ) / 10 := by norm_num
  rw [divergence_spec_gt_iff seqs (1 / 10) (by norm_num), h]

/-! ## Evaluations on the two-sequence example of lengths 10 and 20
(mean 15, variance 25, divergence 5/15 = 1/3) -/

theorem cex_mean_length :
    mean_length ["ACGTACGTAC", "ACGTACGTACGTACGTACGT"] = 15 := by
  have h1 : ("ACGTACGTAC" : String).length = 10 := rfl
  have h2 : ("ACGTACGTACGTACGTACGT" : String).length = 20 := rfl
  unfold mean_length
  rw [if_neg (by decide)]
  simp [h1, h2]
  norm_num

theorem cex_var_length :
    var_length ["ACGTACGTAC", "ACGTACGTACGTACGTACGT"] = 25 := by
  have h1 : ("ACGTACGTAC" : String).length = 10 := rfl
  have h2 : ("ACGTACGTACGTACGTACGT" : String).length = 20 := rfl
  unfold var_length
  rw [if_neg (by decide), cex_mean_length]
  simp [h1, h2]
  norm_num

theorem cex_div_gt_5_100 :
    div_gt ["ACGTACGTAC", "ACGTACGTACGTACGTACGT"] (5 / 100) := by
  unfold div_gt
  rw [cex_mean_length, cex_var_length]
  norm_num

theorem cex_div_gt_1_10 :
    div_gt ["ACGTACGTAC", "ACGTACGTACGTACGTACGT"] (1 / 10) := by
  unfold div_gt
  rw [cex_mean_length, cex_var_length]
  norm_num

theorem cex_opt_params :
    auto_optimize_parameters ["ACGTACGTAC", "ACGTACGTACGTACGTACGT"] "dna" "accurate"
      = ⟨"einsi", some (15 / 10), some (2 / 10), 32⟩ := by
  unfold auto_optimize_parameters
  rw [if_neg (by decide : ¬ ("accurate" : String) = "fast"),
    if_neg (by decide : ¬ ("dna" : String) = "protein"),
    if_pos cex_div_gt_5_100, if_pos cex_div_gt_1_10, if_pos cex_div_gt_1_10,
    if_pos cex_div_gt_5_100]

theorem cex_opt_params_protein :
    auto_optimize_parameters ["ACGTACGTAC", "ACGTACGTACGTACGTACGT"] "protein" "accurate"
      = ⟨"linsi", some (15 / 10), some (2 / 10), 32⟩ := by
  unfold auto_optimize_parameters
  rw [if_neg (by decide : ¬ ("accurate" : String) = "fast"),
    if_pos (rfl : ("protein" : String) = "protein"),
    if_pos cex_div_gt_5_100, if_pos cex_div_gt_1_10, if_pos cex_div_gt_1_10,
    if_pos cex_div_gt_5_100]

/-- Counterexample to claim C3: two nucleotide sequences of lengths 10 and 20
have divergence 1/3 > 0.05, and in mode "accurate" the optimizer selects
"einsi", whose aligner command carries `--genafpair` and NOT `--globalpair` —
not the globally-exhaustive pairing strategy the claim names. -/
theorem claim_C3_counterexample :
    (5 : ℝ) / 100 < divergence ["ACGTACGTAC", "ACGTACGTACGTACGTACGT"]
    ∧ (auto_optimize_parameters ["ACGTACGTAC", "ACGTACGTACGTACGTACGT"] "dna"
        "accurate").mafft_method = "einsi"
    ∧ Arg.str "--globalpair" ∉
        build_cmd 1
          (auto_optimize_parameters ["ACGTACGTAC", "ACGTACGTACGTACGTACGT"] "dna"
            "accurate").gap_open
          (auto_optimize_parameters ["ACGTACGTAC", "ACGTACGTACGTACGTACGT"] "dna"
            "accurate").gap_extend
          "chunk_0.fasta"
          (auto_optimize_parameters ["ACGTACGTAC", "ACGTACGTACGTACGTACGT"] "dna"
            "accurate").mafft_method
    ∧ Arg.str "--genafpair" ∈
        build_cmd 1
          (auto_optimize_parameters ["ACGTACGTAC", "ACGTACGTACGTACGTACGT"] "dna"
            "accurate").gap_open
          (auto_optimize_parameters ["ACGTACGTAC", "ACGTACGTACGTACGTACGT"] "dna"
            "accurate").gap_extend
          "chunk_0.fasta"
          (auto_optimize_parameters ["ACGTACGTAC", "ACGTACGTACGTACGTACGT"] "dna"
            "accurate").mafft_method := by
  refine ⟨(divergence_gt_5_100_iff _).mp cex_div_gt_5_100, ?_, ?_, ?_⟩ <;>
    rw [cex_opt_params] <;> decide

/-- Claim C3 as amended: in mode "accurate" with divergence > 0.05 a
nucleotide set selects "einsi" — the generalized-affine pairing strategy whose
command uses `--genafpair` (not `--globalpair`) — while a protein set selects
"linsi" (`--localpair`); with divergence ≤ 0.05 the method is "auto". -/
theorem claim_C3_amended_accurate_method (seqs : List String) (seq_type : String)
    (threads : ℕ) (f : String) :
    ((5 : ℝ) / 100 < divergence seqs →
      (seq_type ≠ "protein" →
        (auto_optimize_parameters seqs seq_type "accurate").mafft_method = "einsi"
        ∧ Arg.str "--genafpair" ∈
            build_cmd threads
              (auto_optimize_parameters seqs seq_type "accurate").gap_open
              (auto_optimize_parameters seqs seq_type "accurate").gap_extend f
              (auto_optimize_parameters seqs seq_type "accurate").mafft_method)
      ∧ (seq_type = "protein" →
        (auto_optimize_parameters seqs seq_type "accurate").mafft_method = "linsi"
        ∧ Arg.str "--localpair" ∈
            build_cmd threads
              (auto_optimize_parameters seqs seq_type "accurate").gap_open
              (auto_optimize_parameters seqs seq_type "accurate").gap_extend f
              (auto_optimize_parameters seqs seq_type "accurate").mafft_method))
    ∧ (divergence seqs ≤ (5 : ℝ) / 100 →
        (auto_optimize_parameters seqs seq_type "accurate").mafft_method = "auto") := by
  constructor
  · intro hdiv
    have hgt : div_gt seqs (5 / 100) := (divergence_gt_5_100_iff seqs).mpr hdiv
    constructor
    · intro hst
      have hm : (auto_optimize_parameters seqs seq_type "accurate").mafft_method
          = "einsi" := by
        unfold auto_optimize_parameters
        simp [hst, hgt]
      refine ⟨hm, ?_⟩
      rw [hm]; unfold build_cmd
      cases (auto_optimize_parameters seqs seq_type "accurate").gap_open <;>
        cases (auto_optimize_parameters seqs seq_type "accurate").gap_extend <;> simp
    · intro hst
      have hm : (auto_optimize_parameters seqs seq_type "accurate").mafft_method
          = "linsi" := by
        unfold auto_optimize_parameters
        simp [hst, hgt]
      refine ⟨hm, ?_⟩
      rw [hm]; unfold build_cmd
      cases (auto_optimize_parameters seqs seq_type "accurate").gap_open <;>
        cases (auto_optimize_parameters seqs seq_type "accurate").gap_extend <;> simp
  · intro hle
    have hgt : ¬ div_gt seqs (5 / 100) := by
      rw [divergence_gt_5_100_iff seqs]
      exact not_lt.mpr hle
    unfold auto_optimize_parameters
    by_cases hst : seq_type = "protein" <;> simp [hst, hgt]

/-- Witness for the amended C3: the counterexample input (nucleotide,
divergence 1/3) yields "einsi" with `--genafpair`, and a protein set of the
same lengths yields "linsi" with `--localpair`. -/
theorem claim_C3_amended_witness :
    ((auto_optimize_parameters ["ACGTACGTAC", "ACGTACGTACGTACGTACGT"] "dna"
        "accurate").mafft_method = "einsi"
      ∧ Arg.str "--genafpair" ∈
          build_cmd 1
            (auto_optimize_parameters ["ACGTACGTAC", "ACGTACGTACGTACGTACGT"] "dna"
              "accurate").gap_open
            (auto_optimize_parameters ["ACGTACGTAC", "ACGTACGTACGTACGTACGT"] "dna"
              "accurate").gap_extend "chunk_0.fasta"
            (auto_optimize_parameters ["ACGTACGTAC", "ACGTACGTACGTACGTACGT"] "dna"
              "accurate").mafft_method)
    ∧ ((auto_optimize_parameters ["ACGTACGTAC", "ACGTACGTACGTACGTACGT"] "protein"
        "accurate").mafft_method = "linsi"
      ∧ Arg.str "--localpair" ∈
          build_cmd 1
            (auto_optimize_parameters ["ACGTACGTAC", "ACGTACGTACGTACGTACGT"] "protein"
              "accurate").gap_open
            (auto_optimize_parameters ["ACGTACGTAC", "ACGTACGTACGTACGTACGT"] "protein"
              "accurate").gap_extend "chunk_0.fasta"
            (auto_optimize_parameters ["ACGTACGTAC", "ACGTACGTACGTACGTACGT"] "protein"
              "accurate").mafft_method) := by
  have hdiv : (5 : ℝ) / 100 < divergence ["ACGTACGTAC", "ACGTACGTACGTACGTACGT"] :=
    (divergence_gt_5_100_iff ["ACGTACGTAC", "ACGTACGTACGTACGTACGT"]).mp cex_div_gt_5_100
  exact
    ⟨((claim_C3_amended_accurate_method ["ACGTACGTAC", "ACGTACGTACGTACGTACGT"] "dna"
        1 "chunk_0.fasta").1 hdiv).1 (by decide),
     ((claim_C3_amended_accurate_method ["ACGTACGTAC", "ACGTACGTACGTACGTACGT"] "protein"
        1 "chunk_0.fasta").1 hdiv).2 rfl⟩

/-- Fields of the accurate-mode parameter record, as the chained conditionals
of lines 106-108. -/
theorem accurate_fields (seqs : List String) (seq_type : String) :
    (auto_optimize_parameters seqs seq_type "accurate").gap_open
        = (if div_gt seqs (1 / 10) then some (15 / 10)
           else if div_gt seqs (5 / 100) then some 1 else none)
    ∧ (auto_optimize_parameters seqs seq_type "accurate").gap_extend
        = (if div_gt seqs (1 / 10) then some (2 / 10)
           else if div_gt seqs (5 / 100) then some (1 / 10) else none)
    ∧ (auto_optimize_parameters seqs seq_type "accurate").muscle_max_iter
        = (if div_gt seqs (5 / 100) then 32 else 16) := by
  unfold auto_optimize_parameters
  rw [if_neg (by decide : ¬ ("accurate" : String) = "fast")]
  exact ⟨rfl, rfl, rfl⟩

/-- Claim C7: divergence is stddev/mean of the sequence lengths (0 when the
mean is 0 — `divergence` is literally that formula, and the second conjunct is
its mean-0 clause); mode "fast" returns method "auto", no gap penalties and 8
refinement iterations; mode "accurate" leaves the gap penalties unset for
divergence ≤ 0.05, sets (1.0, 0.1) on 0.05 < divergence ≤ 0.1 and (1.5, 0.2)
above 0.1, with 32 refinement iterations above 0.05 and 16 otherwise. -/
theorem claim_C7_optimizer_parameters (seqs : List String) (seq_type : String) :
    auto_optimize_parameters seqs seq_type "fast" = ⟨"auto", none, none, 8⟩
    ∧ (mean_length seqs = 0 → divergence seqs = 0)
    ∧ (divergence seqs ≤ (5 : ℝ) / 100 →
        (auto_optimize_parameters seqs seq_type "accurate").gap_open = none
        ∧ (auto_optimize_parameters seqs seq_type "accurate").gap_extend = none
        ∧ (auto_optimize_parameters seqs seq_type "accurate").muscle_max_iter = 16)
    ∧ ((5 : ℝ) / 100 < divergence seqs → divergence seqs ≤ (1 : ℝ) / 10 →
        (auto_optimize_parameters seqs seq_type "accurate").gap_open = some 1
        ∧ (auto_optimize_parameters seqs seq_type "accurate").gap_extend = some (1 / 10)
        ∧ (auto_optimize_parameters seqs seq_type "accurate").muscle_max_iter = 32)
    ∧ ((1 : ℝ) / 10 < divergence seqs →
        (auto_optimize_parameters seqs seq_type "accurate").gap_open = some (15 / 10)
        ∧ (auto_optimize_parameters seqs seq_type "accurate").gap_extend = some (2 / 10)
        ∧ (auto_optimize_parameters seqs seq_type "accurate").muscle_max_iter = 32) := by
  obtain ⟨e1, e2, e3⟩ := accurate_fields seqs seq_type
  refine ⟨?_, ?_, ?_, ?_, ?_⟩
  · unfold auto_optimize_parameters
    rw [if_pos rfl]
  · intro hm
    unfold divergence
    rw [if_neg (by rw [hm]; exact lt_irrefl 0)]
  · intro hle
    have h5 : ¬ div_gt seqs (5 / 100) := by
      rw [divergence_gt_5_100_iff seqs]; exact not_lt.mpr hle
    have h10 : ¬ div_gt seqs (1 / 10) := by
      rw [divergence_gt_1_10_iff seqs]
      exact not_lt.mpr (hle.trans (by norm_num))
    rw [e1, e2, e3, if_neg h10, if_neg h10, if_neg h5, if_neg h5, if_neg h5]
    exact ⟨rfl, rfl, rfl⟩
  · intro hgt hle
    have h5 : div_gt seqs (5 / 100) := (divergence_gt_5_100_iff seqs).mpr hgt
    have h10 : ¬ div_gt seqs (1 / 10) := by
      rw [divergence_gt_1_10_iff seqs]; exact not_lt.mpr hle
    rw [e1, e2, e3, if_neg h10, if_neg h10, if_pos h5, if_pos h5, if_pos h5]
    exact ⟨rfl, rfl, rfl⟩
  · intro hgt
    have h10 : div_gt seqs (1 / 10) := (divergence_gt_1_10_iff seqs).mpr hgt
    have h5 : div_gt seqs (5 / 100) :=
      (divergence_gt_5_100_iff seqs).mpr ((by norm_num : (5 : ℝ) / 100 < 1 / 10).trans hgt)
    rw [e1, e2, e3, if_pos h10, if_pos h10, if_pos h5]
    exact ⟨rfl, rfl, rfl⟩

theorem wit_mean_length :
    mean_length ["AAAAAAAAAAAAAAAAAA", "AAAAAAAAAAAAAAAAAAAAA"] = 39 / 2 := by
  have h1 : ("AAAAAAAAAAAAAAAAAA" : String).length = 18 := rfl
  have h2 : ("AAAAAAAAAAAAAAAAAAAAA" : String).length = 21 := rfl
  unfold mean_length
  rw [if_neg (by decide)]
  simp [h1, h2]
  norm_num

theorem wit_var_length :
    var_length ["AAAAAAAAAAAAAAAAAA", "AAAAAAAAAAAAAAAAAAAAA"] = 9 / 4 := by
  have h1 : ("AAAAAAAAAAAAAAAAAA" : String).length = 18 := rfl
  have h2 : ("AAAAAAAAAAAAAAAAAAAAA" : String).length = 21 := rfl
  unfold var_length
  rw [if_neg (by decide), wit_mean_length]
  simp [h1, h2]
  norm_num

theorem wit_div_gt_5_100 :
    div_gt ["AAAAAAAAAAAAAAAAAA", "AAAAAAAAAAAAAAAAAAAAA"] (5 / 100) := by
  unfold div_gt
  rw [wit_mean_length, wit_var_length]
  norm_num

theorem wit_not_div_gt_1_10 :
    ¬ div_gt ["AAAAAAAAAAAAAAAAAA", "AAAAAAAAAAAAAAAAAAAAA"] (1 / 10) := by
  unfold div_gt
  rw [wit_mean_length, wit_var_length]
  norm_num

/-- Witness for C7: an empty set has divergence 0; the lengths-18-and-21 set
(divergence 3/39 ∈ (0.05, 0.1]) receives the moderate preset (1.0, 0.1) and
32 iterations; and fast mode returns ("auto", none, none, 8). -/
theorem claim_C7_witness :
    auto_optimize_parameters ["AAAAAAAAAAAAAAAAAA", "AAAAAAAAAAAAAAAAAAAAA"] "dna" "fast"
        = ⟨"auto", none, none, 8⟩
    ∧ divergence [] = 0
    ∧ ((auto_optimize_parameters ["AAAAAAAAAAAAAAAAAA", "AAAAAAAAAAAAAAAAAAAAA"] "dna"
          "accurate").gap_open = some 1
        ∧ (auto_optimize_parameters ["AAAAAAAAAAAAAAAAAA", "AAAAAAAAAAAAAAAAAAAAA"] "dna"
          "accurate").gap_extend = some (1 / 10)
        ∧ (auto_optimize_parameters ["AAAAAAAAAAAAAAAAAA", "AAAAAAAAAAAAAAAAAAAAA"] "dna"
          "accurate").muscle_max_iter = 32) := by
  have hgt : (5 : ℝ) / 100
      < divergence ["AAAAAAAAAAAAAAAAAA", "AAAAAAAAAAAAAAAAAAAAA"] :=
    (divergence_gt_5_100_iff _).mp wit_div_gt_5_100
  have hle : divergence ["AAAAAAAAAAAAAAAAAA", "AAAAAAAAAAAAAAAAAAAAA"]
      ≤ (1 : ℝ) / 10 := by
    have := wit_not_div_gt_1_10
    rw [divergence_gt_1_10_iff] at this
    exact not_lt.mp this
  exact
    ⟨(claim_C7_optimizer_parameters ["AAAAAAAAAAAAAAAAAA", "AAAAAAAAAAAAAAAAAAAAA"]
        "dna").1,
     (claim_C7_optimizer_parameters [] "dna").2.1 (by simp [mean_length]),
     (claim_C7_optimizer_parameters ["AAAAAAAAAAAAAAAAAA", "AAAAAAAAAAAAAAAAAAAAA"]
        "dna").2.2.2.1 hgt hle⟩

/-! ## Progressive-merge lemmas -/

/-- A one-file list exits the `while` loop immediately. -/
theorem progressive_merge_single (step : ℕ) (f : String) :
    progressive_merge step [f] = ⟨some f, 0, [], []⟩ := by
  rw [progressive_merge]
  rfl

/-- The loop executes `⌈log₂ n⌉` rounds on `n ≥ 1` files. -/
theorem progressive_merge_rounds :
    ∀ (n : ℕ) (l : List String) (step : ℕ), l.length = n → 1 ≤ n →
      (progressive_merge step l).rounds = Nat.clog 2 n := by
  intro n
  induction n using Nat.strong_induction_on with
  | _ n ih =>
    intro l step hl hn
    rcases le_or_lt l.length 1 with h1 | h1
    · have hn1 : n = 1 := by omega
      rw [progressive_merge, dif_pos h1, hn1, Nat.clog_one_right]
    · have hrl := mergeRound_length step l 0
      rw [progressive_merge, dif_neg (by omega)]
      dsimp only
      rw [ih ((n + 1) / 2) (by omega) (mergeRound step 0 l).1 (step + 1)
          (by rw [hrl, hl]) (by omega),
        Nat.clog_of_two_le (by norm_num) (by omega : 2 ≤ n),
        show n + 2 - 1 = n + 1 by omega]

/-- The loop returns a file whenever it starts from a nonempty list. -/
theorem progressive_merge_result :
    ∀ (n : ℕ) (l : List String) (step : ℕ), l.length = n → 1 ≤ n →
      ∃ f, (progressive_merge step l).result = some f := by
  intro n
  induction n using Nat.strong_induction_on with
  | _ n ih =>
    intro l step hl hn
    rcases le_or_lt l.length 1 with h1 | h1
    · have hlen1 : l.length = 1 := by omega
      obtain ⟨a, rfl⟩ := List.length_eq_one.mp hlen1
      exact ⟨a, by rw [progressive_merge_single]⟩
    · have hrl := mergeRound_length step l 0
      rw [progressive_merge, dif_neg (by omega)]
      dsimp only
      exact ih ((n + 1) / 2) (by omega) (mergeRound step 0 l).1 (step + 1)
        (by rw [hrl, hl]) (by omega)

/-- Claim C4: on N > 1 aligned chunks the Progressive Merge Reducer executes
exactly `⌈log₂ N⌉` rounds (each merging adjacent pairs, an odd trailing file
carried forward) and returns a single file; on a one-element list it executes
0 rounds and returns that chunk unchanged. -/
theorem claim_C4_merge_rounds (files : List String) (step : ℕ) :
    (1 < files.length →
        (progressive_merge step files).rounds = Nat.clog 2 files.length
        ∧ ∃ f, (progressive_merge step files).result = some f)
    ∧ ∀ f : String, progressive_merge step [f] = ⟨some f, 0, [], []⟩ := by
  constructor
  · intro h
    exact ⟨progressive_merge_rounds files.length files step rfl (by omega),
      progressive_merge_result files.length files step rfl (by omega)⟩
  · intro f
    exact progressive_merge_single step f

/-- Witness for C4: three files take `⌈log₂ 3⌉ = 2` rounds and produce a
single result; one file is returned unchanged after 0 rounds. -/
theorem claim_C4_witness :
    ((progressive_merge 1 ["a", "b", "c"]).rounds = Nat.clog 2 ["a", "b", "c"].length
      ∧ ∃ f, (progressive_merge 1 ["a", "b", "c"]).result = some f)
    ∧ progressive_merge 1 ["x"] = ⟨some "x", 0, [], []⟩ :=
  ⟨(claim_C4_merge_rounds ["a", "b", "c"] 1).1 (by decide),
   (claim_C4_merge_rounds ["x"] 1).2 "x"⟩

/-! ## File bookkeeping lemmas -/

/-- One merge round consumes exactly the paired files and produces exactly the
merged files: inputs plus created equals removed plus survivors. -/
theorem mergeRound_balance (step : ℕ) :
    ∀ (l : List String) (j : ℕ),
      (l : Multiset String) + ((mergeRound step j l).2.1 : Multiset String)
        = ((mergeRound step j l).2.2 : Multiset String)
          + ((mergeRound step j l).1 : Multiset String)
  | [], _ => by simp [mergeRound]
  | [f], _ => by simp [mergeRound]
  | a :: b :: rest, j => by
    have ih := mergeRound_balance step rest (j + 1)
    simp only [mergeRound, ← Multiset.cons_coe, Multiset.cons_add, Multiset.add_cons]
    rw [ih]

/-- Across the whole merge phase: initial files plus all files created equals
all files removed plus the final result. -/
theorem progressive_merge_balance :
    ∀ (n : ℕ) (l : List String) (step : ℕ), l.length = n → 1 ≤ n →
      (l : Multiset String) + ((progressive_merge step l).created : Multiset String)
        = ((progressive_merge step l).removed : Multiset String)
          + ((progressive_merge step l).result.toList : Multiset String) := by
  intro n
  induction n using Nat.strong_induction_on with
  | _ n ih =>
    intro l step hl hn
    rcases le_or_lt l.length 1 with h1 | h1
    · have hlen1 : l.length = 1 := by omega
      obtain ⟨a, rfl⟩ := List.length_eq_one.mp hlen1
      rw [progressive_merge_single]
      simp
    · have hrl := mergeRound_length step l 0
      have hrb := mergeRound_balance step l 0
      have hih := ih ((n + 1) / 2) (by omega) (mergeRound step 0 l).1 (step + 1)
        (by rw [hrl, hl]) (by omega)
      rw [progressive_merge, dif_neg (by omega)]
      dsimp only
      simp only [← Multiset.coe_add]
      rw [← add_assoc, hrb, add_assoc, hih, ← add_assoc]

/-- Chunk files and aligned outputs split as the per-chunk results plus the
chunk files of multi-sequence chunks. -/
theorem chunk_files_split :
    ∀ (sizes : List ℕ) (k : ℕ),
      (chunkFilesFrom k sizes : Multiset String)
        + (alignedCreatedFrom k sizes : Multiset String)
        = (alignResultsFrom k sizes : Multiset String)
          + (multiChunkFilesFrom k sizes : Multiset String)
  | [], _ => by
    simp [chunkFilesFrom, alignedCreatedFrom, alignResultsFrom, multiChunkFilesFrom]
  | sz :: rest, k => by
    have ih := chunk_files_split rest (k + 1)
    by_cases h : sz ≤ 1
    · simp only [chunkFilesFrom, alignedCreatedFrom, alignResultsFrom,
        multiChunkFilesFrom, if_pos h, ← Multiset.cons_coe, Multiset.cons_add,
        Multiset.add_cons]
      rw [ih]
    · simp only [chunkFilesFrom, alignedCreatedFrom, alignResultsFrom,
        multiChunkFilesFrom, if_neg h, ← Multiset.cons_coe, Multiset.cons_add,
        Multiset.add_cons]
      rw [ih, Multiset.cons_swap]

theorem alignResultsFrom_length :
    ∀ (sizes : List ℕ) (k : ℕ), (alignResultsFrom k sizes).length = sizes.length
  | [], _ => rfl
  | _ :: rest, k => by
    simp [alignResultsFrom, alignResultsFrom_length rest (k + 1)]

/-- Claim C2 as amended: when a run succeeds on a nonempty input, every
intermediate merge file, every per-chunk aligned output, every single-sequence
chunk file and the MUSCLE temporary have been removed, but the `chunk_<i>.fasta`
files of chunks holding more than one sequence are never deleted — exactly
those files remain on disk besides the user's output and log. -/
theorem claim_C2_amended_leftover (seqs : List String) (chunk_size : ℕ)
    (hseqs : seqs ≠ []) (hcs : 0 < chunk_size) :
    pipelineLeftover seqs chunk_size
      = (multiChunkFilesFrom 0 (chunkSizes seqs chunk_size) : Multiset String) := by
  have hnc : 1 ≤ (chunkSizes seqs chunk_size).length := by
    unfold chunkSizes chunk_fasta
    rw [List.length_map, List.length_map, List.length_range,
      Nat.le_div_iff_mul_le hcs]
    have hn : 1 ≤ seqs.length := List.length_pos.mpr hseqs
    omega
  have hlen : 1 ≤ (alignResultsFrom 0 (chunkSizes seqs chunk_size)).length := by
    rw [alignResultsFrom_length]
    exact hnc
  have hb := progressive_merge_balance
    (alignResultsFrom 0 (chunkSizes seqs chunk_size)).length
    (alignResultsFrom 0 (chunkSizes seqs chunk_size)) 1 rfl hlen
  have hs := chunk_files_split (chunkSizes seqs chunk_size) 0
  unfold pipelineLeftover pipelineCreated pipelineRemoved
  rw [show
    (chunkFilesFrom 0 (chunkSizes seqs chunk_size) : Multiset String)
      + (alignedCreatedFrom 0 (chunkSizes seqs chunk_size) : Multiset String)
      + ((progressive_merge 1
          (alignResultsFrom 0 (chunkSizes seqs chunk_size))).created : Multiset String)
      + {tempMuscle}
    = ((progressive_merge 1
          (alignResultsFrom 0 (chunkSizes seqs chunk_size))).removed : Multiset String)
        + ((progressive_merge 1
            (alignResultsFrom 0
              (chunkSizes seqs chunk_size))).result.toList : Multiset String)
        + {tempMuscle}
        + (multiChunkFilesFrom 0 (chunkSizes seqs chunk_size) : Multiset String) by
      rw [hs]
      calc
        (alignResultsFrom 0 (chunkSizes seqs chunk_size) : Multiset String)
            + (multiChunkFilesFrom 0 (chunkSizes seqs chunk_size) : Multiset String)
            + ((progressive_merge 1
                (alignResultsFrom 0
                  (chunkSizes seqs chunk_size))).created : Multiset String)
            + {tempMuscle}
          = (alignResultsFrom 0 (chunkSizes seqs chunk_size) : Multiset String)
            + ((progressive_merge 1
                (alignResultsFrom 0
                  (chunkSizes seqs chunk_size))).created : Multiset String)
            + (multiChunkFilesFrom 0 (chunkSizes seqs chunk_size) : Multiset String)
            + {tempMuscle} := by abel
        _ = ((progressive_merge 1
                (alignResultsFrom 0
                  (chunkSizes seqs chunk_size))).removed : Multiset String)
            + ((progressive_merge 1
                (alignResultsFrom 0
                  (chunkSizes seqs chunk_size))).result.toList : Multiset String)
            + (multiChunkFilesFrom 0 (chunkSizes seqs chunk_size) : Multiset String)
            + {tempMuscle} := by rw [hb]
        _ = ((progressive_merge 1
                (alignResultsFrom 0
                  (chunkSizes seqs chunk_size))).removed : Multiset String)
            + ((progressive_merge 1
                (alignResultsFrom 0
                  (chunkSizes seqs chunk_size))).result.toList : Multiset String)
            + {tempMuscle}
            + (multiChunkFilesFrom 0 (chunkSizes seqs chunk_size) : Multiset String) := by
          abel]
  exact add_tsub_cancel_left _ _

/-- Witness for the amended C2 on two sequences in one chunk of size two. -/
theorem claim_C2_amended_witness :
    pipelineLeftover ["AA", "CC"] 2
      = (multiChunkFilesFrom 0 (chunkSizes ["AA", "CC"] 2) : Multiset String) :=
  claim_C2_amended_leftover ["AA", "CC"] 2 (by decide) (by decide)

/-- Counterexample to claim C2: a successful run on two sequences with chunk
size 2 leaves `chunk_0.fasta` on disk — `run_mafft_chunk` never deletes the
chunk file it read (it returns `chunk_0.fasta.aligned.fasta`, and only that
aligned file flows into the merge/cleanup phase), so the intermediate-file set
at completion is not empty. -/
theorem claim_C2_counterexample :
    chunkName 0 ∈ pipelineLeftover ["AA", "CC"] 2
    ∧ pipelineLeftover ["AA", "CC"] 2 ≠ 0 := by
  have hres : alignResultsFrom 0 (chunkSizes ["AA", "CC"] 2)
      = [alignedName (chunkName 0)] := by decide
  have h : pipelineLeftover ["AA", "CC"] 2 = {chunkName 0} := by
    unfold pipelineLeftover pipelineCreated pipelineRemoved
    rw [hres, progressive_merge_single]
    decide
  exact ⟨by rw [h]; decide, by rw [h]; decide⟩

end SwiftAlign
